import Mathlib

set_option autoImplicit false

/-!
Shallow embedding of the `ddtracer` package (a dd-trace-go wrapper for the
OpenTracing API): the text-map propagator from `propagation.go` and the
tracer/span facade. Go `uint64` values are modelled as `Nat` with explicit
`< 2 ^ 64` bounds where the 64-bit width matters; Go's `(value, error)`
returns are modelled with `Option`/`Except`; the caller-supplied carrier is
an association list of string keys and values (map-semantics `Set`, ordered
iteration standing in for Go's unconstrained map iteration order).
-/

/-! ## Hexadecimal formatting and parsing

`strconv.FormatUint(n, 16)` and `strconv.ParseUint(v, 16, 64)` as used by
the propagator. -/

/-- The lower-case hexadecimal digit character for `d < 16`
(`0`-`9` then `a`-`f`), as produced by `strconv.FormatUint` with base 16. -/
def hexChar (d : Nat) : Char :=
  if d < 10 then Char.ofNat (48 + d) else Char.ofNat (87 + d)

/-- Little-endian list of hexadecimal digits of `n` (empty for `0`). -/
def toHexRev (n : Nat) : List Char :=
  if h : n = 0 then [] else hexChar (n % 16) :: toHexRev (n / 16)
decreasing_by exact Nat.div_lt_self (Nat.pos_of_ne_zero h) (by decide)

/-- Go `strconv.FormatUint n 16`: minimal lower-case hexadecimal digits,
`"0"` for zero. -/
def formatUint16 (n : Nat) : String :=
  if n = 0 then "0" else String.mk (toHexRev n).reverse

/-- Numeric value of a hexadecimal digit character; `ParseUint` with base 16
accepts `0`-`9`, `a`-`f` and `A`-`F`. -/
def hexVal (c : Char) : Option Nat :=
  if ('0' ≤ c ∧ c ≤ '9') then some (c.toNat - 48)
  else if ('a' ≤ c ∧ c ≤ 'f') then some (c.toNat - 97 + 10)
  else if ('A' ≤ c ∧ c ≤ 'F') then some (c.toNat - 65 + 10)
  else none

/-- Left-to-right accumulation of hexadecimal digits; `none` at the first
character that is not a hexadecimal digit. -/
def parseHexCore : List Char → Nat → Option Nat
  | [], acc => some acc
  | c :: cs, acc =>
    match hexVal c with
    | none => none
    | some d => parseHexCore cs (16 * acc + d)

/-- Go `strconv.ParseUint v 16 64`: `some` of the value exactly when Go returns
a nil error — the string is non-empty, every character is a hexadecimal
digit, and the value fits in 64 bits. (On Go's error paths the returned
`uint64` is never consumed by this package, so the model drops it.) -/
def parseUint16 (s : String) : Option Nat :=
  if s.data = [] then none
  else
    match parseHexCore s.data 0 with
    | none => none
    | some v => if v < 2 ^ 64 then some v else none

/-! ## Carrier and propagation fields (`propagation.go`) -/

/-- Constant `fieldSpanID = tracePrefix + "spanid"` from `propagation.go`. -/
def fieldSpanID : String := "dd-trace-spanid"

/-- Constant `fieldTraceID = tracePrefix + "traceid"` from `propagation.go`. -/
def fieldTraceID : String := "dd-trace-traceid"

/-- Constant `fieldParentID = tracePrefix + "parentid"` from `propagation.go`. -/
def fieldParentID : String := "dd-trace-parentid"

/-- The identifier triple carried by a span (`tracer.Span`'s `TraceID`,
`SpanID`, `ParentID` fields, all Go `uint64`). -/
structure TraceContext where
  traceID : Nat
  spanID : Nat
  parentID : Nat
deriving DecidableEq

/-- Carrier `TextMapWriter.Set` with map semantics (`opentracing.TextMapCarrier`):
overwrite the binding of `k` if present, else append it. -/
def carrierSet : List (String × String) → String → String → List (String × String)
  | [], k, v => [(k, v)]
  | (k0, v0) :: rest, k, v =>
    if k0 = k then (k, v) :: rest else (k0, v0) :: carrierSet rest k v

/-- Lookup of the first binding of `k` in a carrier. -/
def carrierGet : List (String × String) → String → Option String
  | [], _ => none
  | (k0, v0) :: rest, k => if k0 = k then some v0 else carrierGet rest k

/-- ASCII lower-casing of one character, modelling `strings.ToLower` on the
ASCII range (the only range the recognized keys live in). -/
def charToLower (c : Char) : Char :=
  if ('A' ≤ c ∧ c ≤ 'Z') then Char.ofNat (c.toNat + 32) else c

/-- Go `strings.ToLower`, character-wise on the ASCII range. -/
def strToLower (s : String) : String := String.mk (s.data.map charToLower)

/-- The OpenTracing error values this package returns
(`opentracing.ErrInvalidCarrier`, `ErrSpanContextCorrupted`,
`ErrInvalidSpanContext`, `ErrUnsupportedFormat`). -/
inductive OTError where
  | invalidCarrier
  | spanContextCorrupted
  | invalidSpanContext
  | unsupportedFormat
deriving DecidableEq

/-- The `interface{}` carrier argument: either a text-map carrier (supports
the `TextMapWriter`/`TextMapReader` casts) or some other value. -/
inductive OTCarrier where
  | textMap (entries : List (String × String))
  | nonTextMap
deriving DecidableEq

/-- The three `Set` calls of `textMapPropagator.Inject`: span id, then trace
id, then — only when `ParentID > 0` — parent id, each formatted base 16. -/
def injectWrites (span : TraceContext) (c : List (String × String)) :
    List (String × String) :=
  let c1 := carrierSet c fieldSpanID (formatUint16 span.spanID)
  let c2 := carrierSet c1 fieldTraceID (formatUint16 span.traceID)
  if span.parentID > 0 then carrierSet c2 fieldParentID (formatUint16 span.parentID)
  else c2

/-- Model of `textMapPropagator.Inject`: `ErrInvalidCarrier` when the carrier is not
a `TextMapWriter` (no writes), otherwise the three `Set` calls and a nil
error. Returns the carrier state after the call alongside the error. -/
def propInject (span : TraceContext) (carrier : OTCarrier) :
    OTCarrier × Option OTError :=
  match carrier with
  | .nonTextMap => (.nonTextMap, some .invalidCarrier)
  | .textMap es => (.textMap (injectWrites span es), none)

/-- The `ForeachKey` loop body of `textMapPropagator.Extract`: switch on
`strings.ToLower(k)` over the three field constants, parse the matched value
base 16, abort with `ErrSpanContextCorrupted` at the first parse failure.
The accumulator starts from the zero-initialised `spanID`, `traceID`,
`parentID` locals. -/
def extractLoop : List (String × String) → TraceContext → Except OTError TraceContext
  | [], acc => .ok acc
  | (k, v) :: rest, acc =>
    if strToLower k = fieldSpanID then
      match parseUint16 v with
      | some x => extractLoop rest { acc with spanID := x }
      | none => .error .spanContextCorrupted
    else if strToLower k = fieldTraceID then
      match parseUint16 v with
      | some x => extractLoop rest { acc with traceID := x }
      | none => .error .spanContextCorrupted
    else if strToLower k = fieldParentID then
      match parseUint16 v with
      | some x => extractLoop rest { acc with parentID := x }
      | none => .error .spanContextCorrupted
    else extractLoop rest acc

/-- Model of `textMapPropagator.Extract`: `ErrInvalidCarrier` when the carrier is not
a `TextMapReader`, otherwise the `ForeachKey` fold. (On the error paths the
Go code also returns a span context built from the locals, but every caller
consults only the error, so the model keeps the context on success only.) -/
def propExtract (carrier : OTCarrier) : Except OTError TraceContext :=
  match carrier with
  | .nonTextMap => .error .invalidCarrier
  | .textMap es => extractLoop es { traceID := 0, spanID := 0, parentID := 0 }

/-- Whether a carrier key matches one of the three recognized fields after
lower-casing (the cases of the `Extract` switch). -/
def isRecognizedKey (k : String) : Bool :=
  strToLower k == fieldSpanID || strToLower k == fieldTraceID ||
    strToLower k == fieldParentID

/-! ## Tracer facade (`Tracer.Inject` / `Tracer.Extract`) -/

/-- The `interface{}` format argument: the built-in OpenTracing format
constants. Only `HTTPHeaders` matches the switch in `Tracer.Inject` and
`Tracer.Extract`; `binary`, `textMap` and any other value fall through. -/
inductive OTFormat where
  | binary
  | textMap
  | httpHeaders
deriving DecidableEq

/-- The `opentracing.SpanContext` argument of `Tracer.Inject`: either a
`*SpanContext` of this package whose inner `context.Context` holds a span
(the only case both type assertions succeed on), a `*SpanContext` whose
inner context holds no span, or a foreign span-context value. -/
inductive OTSpanContextVal where
  | valid (ctx : TraceContext)
  | noSpan
  | foreign
deriving DecidableEq

/-- Model of `Tracer.Inject`: the `*SpanContext` assertion and `SpanFromContext`
lookup run first (each failure returns `ErrInvalidSpanContext`), then the
format switch (only `HTTPHeaders` reaches the propagator, everything else
returns `ErrUnsupportedFormat`). Returns the carrier state after the call
alongside the error; no failure path performs a write. -/
def tracerInject (sm : OTSpanContextVal) (format : OTFormat) (carrier : OTCarrier) :
    OTCarrier × Option OTError :=
  match sm with
  | .foreign => (carrier, some .invalidSpanContext)
  | .noSpan => (carrier, some .invalidSpanContext)
  | .valid ctx =>
    match format with
    | .httpHeaders => propInject ctx carrier
    | _ => (carrier, some .unsupportedFormat)

/-- Model of `Tracer.Extract`: format switch only — `HTTPHeaders` delegates to the
propagator, every other format returns `ErrUnsupportedFormat`. -/
def tracerExtract (format : OTFormat) (carrier : OTCarrier) :
    Except OTError TraceContext :=
  match format with
  | .httpHeaders => propExtract carrier
  | _ => .error .unsupportedFormat

/-! ## Span (`Span.SetTag`, `Span.setMeta`, `Span.LogKV`, `Span.Tracer`) -/

/-- Stand-in for a Go `float64` tag value. The claims concern only the
dynamic-type dispatch in `SetTag`, never floating-point arithmetic, so the
payload is kept as the value's canonical string form (what `fmt.Sprint`
would print), which identifies it. -/
structure GoFloat64 where
  repr : String
deriving DecidableEq

/-- The `interface{}` value passed to `SetTag` / `LogKV`: a `float64`
dispatches to metrics, every other dynamic type is stringified. -/
inductive GoValue where
  | f64 (x : GoFloat64)
  | str (s : String)
  | int (n : Int)
  | boolean (b : Bool)
deriving DecidableEq

/-- Go `fmt.Sprint` on a single value: strings print as themselves, integers
in decimal, booleans as `true`/`false`, floats by their canonical form. -/
def sprint : GoValue → String
  | .f64 x => x.repr
  | .str s => s
  | .int n => toString n
  | .boolean b => if b then "true" else "false"

/-- Constant `ServiceTagKey = "service"`. -/
def ServiceTagKey : String := "service"

/-- Constant `ResourceTagKey = "resource"`. -/
def ResourceTagKey : String := "resource"

/-- The observable state of a `Span` (wrapping a `tracer.Span`): operation
name, the dedicated service and resource fields, the generic string-tag map
(`Meta`) and the numeric metric map (`Metrics`), plus its identifier triple. -/
structure SpanData where
  name : String
  service : String
  resource : String
  meta : List (String × String)
  metrics : List (String × GoFloat64)
  ctx : TraceContext
deriving DecidableEq

/-- Map-semantics update of a string-keyed binding (overwrite or append),
shared by the `Meta` and `Metrics` maps of the underlying `tracer.Span`. -/
def mapSet {α : Type} : List (String × α) → String → α → List (String × α)
  | [], k, v => [(k, v)]
  | (k0, v0) :: rest, k, v =>
    if k0 = k then (k, v) :: rest else (k0, v0) :: mapSet rest k v

/-- First binding of `k` in a string-keyed map. -/
def mapGet {α : Type} : List (String × α) → String → Option α
  | [], _ => none
  | (k0, v0) :: rest, k => if k0 = k then some v0 else mapGet rest k

/-- The underlying client's `SetMetric`. Modelled from the spec: the
implementation lives in the external dd-trace-go dependency; the spec's
collaborator interface specifies it as `setMetric(handle, key, floatValue)`,
attaching the numeric metric to the span under the key. -/
def SpanData.setMetric (s : SpanData) (k : String) (v : GoFloat64) : SpanData :=
  { s with metrics := mapSet s.metrics k v }

/-- The underlying client's `SetMeta`. Modelled from the spec: the
implementation lives in the external dd-trace-go dependency; the spec's
collaborator interface specifies it as `setTag(handle, key, stringValue)`,
attaching the string metadata to the span under the key. -/
def SpanData.setMetaRaw (s : SpanData) (k v : String) : SpanData :=
  { s with meta := mapSet s.meta k v }

/-- Model of `Span.setMeta`: stringify the value with `fmt.Sprint`, then reserved-key
dispatch — `"service"` sets the service field, `"resource"` the resource
field, anything else goes to the generic `SetMeta` map. Returns the span. -/
def SpanData.setMeta (s : SpanData) (key : String) (value : GoValue) : SpanData :=
  let val := sprint value
  if key = ServiceTagKey then { s with service := val }
  else if key = ResourceTagKey then { s with resource := val }
  else s.setMetaRaw key val

/-- Model of `Span.SetTag`: dynamic-type switch — a `float64` value goes to
`SetMetric` under the key, every other type is stringified with
`fmt.Sprint` and handed to `setMeta`. Returns the span. -/
def SetTag (s : SpanData) (key : String) (value : GoValue) : SpanData :=
  match value with
  | .f64 x => s.setMetric key x
  | v => s.setMeta key (.str (sprint v))

/-- Model of `Span.LogFields`: apply `SetTag` to each field's key/value pair in
order. -/
def LogFields (s : SpanData) (fields : List (String × GoValue)) : SpanData :=
  fields.foldl (fun sp kv => SetTag sp kv.1 kv.2) s

/-- Function `log.InterleavedKVToFields` from the opentracing-go log package
(external dependency, modelled from its documented contract, which the spec
restates): pair up an alternating key/value sequence; fail (`none`) on an
odd element count or an element in key position that is not a string. -/
def interleavedKVToFields : List GoValue → Option (List (String × GoValue))
  | [] => some []
  | [_] => none
  | k :: v :: rest =>
    match k with
    | .str s => (interleavedKVToFields rest).map (fun fs => (s, v) :: fs)
    | _ => none

/-- Model of `Span.LogKV`: pair the arguments with `InterleavedKVToFields`; on error
return with no effect, otherwise delegate to `LogFields`. -/
def LogKV (s : SpanData) (args : List GoValue) : SpanData :=
  match interleavedKVToFields args with
  | none => s
  | some fields => LogFields s fields

/-- Model of `Span.Tracer`, whose body is exactly `return s.Tracer()` — an
unconditional call to the method itself. The `Nat` argument is fuel
bounding the call depth: each unfolding consumes one unit and makes the
same call again, and `none` means the computation has not produced a result
within that depth. There is no branch that can return a value. -/
def spanTracerCalls (s : SpanData) : Nat → Option Unit
  | 0 => none
  | n + 1 => spanTracerCalls s n

/-! ## Helper lemmas: hexadecimal round trip -/

theorem hexVal_hexChar {d : Nat} (h : d < 16) : hexVal (hexChar d) = some d := by
  have H : ∀ e, e < 16 → hexVal (hexChar e) = some e := by decide
  exact H d h

theorem parseHexCore_append (l1 l2 : List Char) (acc : Nat) :
    parseHexCore (l1 ++ l2) acc =
      (parseHexCore l1 acc).bind fun a => parseHexCore l2 a := by
  induction l1 generalizing acc with
  | nil => rfl
  | cons c cs ih =>
    simp only [List.cons_append, parseHexCore]
    cases hexVal c with
    | none => rfl
    | some d => exact ih _

theorem parseHexCore_toHexRev (n : Nat) :
    parseHexCore (toHexRev n).reverse 0 = some n := by
  induction n using Nat.strong_induction_on with
  | _ n ih =>
    by_cases h : n = 0
    · subst h
      rw [toHexRev]
      simp [parseHexCore]
    · rw [toHexRev, dif_neg h]
      rw [List.reverse_cons, parseHexCore_append]
      rw [ih (n / 16) (Nat.div_lt_self (Nat.pos_of_ne_zero h) (by decide))]
      simp only [Option.some_bind, parseHexCore,
        hexVal_hexChar (Nat.mod_lt n (by decide))]
      rw [Nat.div_add_mod]

theorem toHexRev_ne_nil {n : Nat} (h : n ≠ 0) : toHexRev n ≠ [] := by
  rw [toHexRev, dif_neg h]
  exact List.cons_ne_nil _ _

theorem parseUint16_formatUint16 {n : Nat} (h : n < 2 ^ 64) :
    parseUint16 (formatUint16 n) = some n := by
  by_cases h0 : n = 0
  · subst h0
    decide
  · rw [formatUint16, if_neg h0, parseUint16]
    have hne : (String.mk (toHexRev n).reverse).data ≠ [] := by
      simpa using toHexRev_ne_nil h0
    rw [if_neg hne]
    have hp : parseHexCore (String.mk (toHexRev n).reverse).data 0 = some n :=
      parseHexCore_toHexRev n
    rw [hp]
    have h2 : n < 18446744073709551616 := by omega
    simp [h2]

/-! ## Helper lemmas: field constants -/

theorem stl_fieldSpanID : strToLower fieldSpanID = fieldSpanID := by decide

theorem stl_fieldTraceID : strToLower fieldTraceID = fieldTraceID := by decide

theorem stl_fieldParentID : strToLower fieldParentID = fieldParentID := by decide

theorem span_ne_trace : fieldSpanID ≠ fieldTraceID := by decide

theorem span_ne_parent : fieldSpanID ≠ fieldParentID := by decide

theorem trace_ne_parent : fieldTraceID ≠ fieldParentID := by decide

theorem isRecognizedKey_iff (k : String) :
    isRecognizedKey k = true ↔
      (strToLower k = fieldSpanID ∨ strToLower k = fieldTraceID ∨
        strToLower k = fieldParentID) := by
  simp [isRecognizedKey, Bool.or_eq_true, or_assoc]

/-! ## C1 -/

/-- C1: for every context triple (traceID, spanID, parentID) of 64-bit
values with parentID > 0, injecting with the propagator's `Inject` into an
empty text-map carrier and extracting from the result with `Extract` yields
a context whose traceID, spanID and parentID equal the originals. -/
theorem c1_inject_extract_roundtrip (t s p : Nat) (ht : t < 2 ^ 64)
    (hs : s < 2 ^ 64) (hp : p < 2 ^ 64) (hpos : 0 < p) :
    propExtract (propInject ⟨t, s, p⟩ (.textMap [])).1 =
      .ok ⟨t, s, p⟩ := by
  have hw : injectWrites ⟨t, s, p⟩ [] =
      [(fieldSpanID, formatUint16 s), (fieldTraceID, formatUint16 t),
        (fieldParentID, formatUint16 p)] := by
    simp [injectWrites, carrierSet, span_ne_trace, span_ne_parent,
      trace_ne_parent, hpos]
  show propExtract (.textMap (injectWrites ⟨t, s, p⟩ [])) = .ok ⟨t, s, p⟩
  rw [hw]
  simp [propExtract, extractLoop, stl_fieldSpanID, stl_fieldTraceID,
    stl_fieldParentID, parseUint16_formatUint16 hs, parseUint16_formatUint16 ht,
    parseUint16_formatUint16 hp,
    (by decide : fieldTraceID ≠ fieldSpanID),
    (by decide : fieldParentID ≠ fieldSpanID),
    (by decide : fieldParentID ≠ fieldTraceID)]

/-- Witness for C1 at the concrete triple (1, 2, 3). -/
theorem c1_inject_extract_roundtrip_witness :
    (1 : Nat) < 2 ^ 64 ∧ (0 : Nat) < 3 ∧
      propExtract (propInject ⟨1, 2, 3⟩ (.textMap [])).1 =
        .ok ⟨1, 2, 3⟩ :=
  ⟨by decide, by decide,
    c1_inject_extract_roundtrip 1 2 3 (by decide) (by decide) (by decide)
      (by decide)⟩

theorem trace_ne_span : fieldTraceID ≠ fieldSpanID := by decide

theorem parent_ne_span : fieldParentID ≠ fieldSpanID := by decide

theorem parent_ne_trace : fieldParentID ≠ fieldTraceID := by decide

/-! ## Helper lemmas: the `ForeachKey` fold of `Extract` -/

theorem extractLoop_ok (c : List (String × String)) (acc : TraceContext)
    (h : ∀ kv ∈ c, isRecognizedKey kv.1 = true → (parseUint16 kv.2).isSome) :
    ∃ ctx, extractLoop c acc = .ok ctx := by
  induction c generalizing acc with
  | nil => exact ⟨acc, rfl⟩
  | cons kv rest ih =>
    obtain ⟨k, v⟩ := kv
    have hrest : ∀ kv ∈ rest, isRecognizedKey kv.1 = true → (parseUint16 kv.2).isSome :=
      fun kv hm => h kv (List.mem_cons_of_mem _ hm)
    by_cases h1 : strToLower k = fieldSpanID
    · have hrec : isRecognizedKey k = true := (isRecognizedKey_iff k).mpr (Or.inl h1)
      obtain ⟨x, hx⟩ := Option.isSome_iff_exists.mp (h (k, v) (List.mem_cons_self _ _) hrec)
      simpa [extractLoop, h1, hx] using ih _ hrest
    · by_cases h2 : strToLower k = fieldTraceID
      · have hrec : isRecognizedKey k = true :=
          (isRecognizedKey_iff k).mpr (Or.inr (Or.inl h2))
        obtain ⟨x, hx⟩ := Option.isSome_iff_exists.mp (h (k, v) (List.mem_cons_self _ _) hrec)
        simpa [extractLoop, h1, h2, trace_ne_span, hx] using ih _ hrest
      · by_cases h3 : strToLower k = fieldParentID
        · have hrec : isRecognizedKey k = true :=
            (isRecognizedKey_iff k).mpr (Or.inr (Or.inr h3))
          obtain ⟨x, hx⟩ := Option.isSome_iff_exists.mp (h (k, v) (List.mem_cons_self _ _) hrec)
          simpa [extractLoop, h1, h2, h3, parent_ne_span, parent_ne_trace, hx] using ih _ hrest
        · simpa [extractLoop, h1, h2, h3] using ih _ hrest

theorem extractLoop_preserve (c : List (String × String)) (acc ctx : TraceContext)
    (h : extractLoop c acc = .ok ctx) :
    ((∀ kv ∈ c, strToLower kv.1 ≠ fieldTraceID) → ctx.traceID = acc.traceID) ∧
    ((∀ kv ∈ c, strToLower kv.1 ≠ fieldSpanID) → ctx.spanID = acc.spanID) ∧
    ((∀ kv ∈ c, strToLower kv.1 ≠ fieldParentID) → ctx.parentID = acc.parentID) := by
  induction c generalizing acc with
  | nil =>
    have : acc = ctx := by simpa [extractLoop] using h
    subst this
    exact ⟨fun _ => rfl, fun _ => rfl, fun _ => rfl⟩
  | cons kv rest ih =>
    obtain ⟨k, v⟩ := kv
    by_cases h1 : strToLower k = fieldSpanID
    · cases hpv : parseUint16 v with
      | none => simp [extractLoop, h1, hpv] at h
      | some x =>
        have h' : extractLoop rest { acc with spanID := x } = .ok ctx := by
          simpa [extractLoop, h1, hpv] using h
        have := ih _ h'
        refine ⟨fun hk => ?_, fun hk => ?_, fun hk => ?_⟩
        · exact this.1 fun kv hm => hk kv (List.mem_cons_of_mem _ hm)
        · exact absurd h1 (hk (k, v) (List.mem_cons_self _ _))
        · exact this.2.2 fun kv hm => hk kv (List.mem_cons_of_mem _ hm)
    · by_cases h2 : strToLower k = fieldTraceID
      · cases hpv : parseUint16 v with
        | none => simp [extractLoop, h1, h2, trace_ne_span, hpv] at h
        | some x =>
          have h' : extractLoop rest { acc with traceID := x } = .ok ctx := by
            simpa [extractLoop, h1, h2, trace_ne_span, hpv] using h
          have := ih _ h'
          refine ⟨fun hk => ?_, fun hk => ?_, fun hk => ?_⟩
          · exact absurd h2 (hk (k, v) (List.mem_cons_self _ _))
          · exact this.2.1 fun kv hm => hk kv (List.mem_cons_of_mem _ hm)
          · exact this.2.2 fun kv hm => hk kv (List.mem_cons_of_mem _ hm)
      · by_cases h3 : strToLower k = fieldParentID
        · cases hpv : parseUint16 v with
          | none => simp [extractLoop, h1, h2, h3, parent_ne_span, parent_ne_trace, hpv] at h
          | some x =>
            have h' : extractLoop rest { acc with parentID := x } = .ok ctx := by
              simpa [extractLoop, h1, h2, h3, parent_ne_span, parent_ne_trace, hpv] using h
            have := ih _ h'
            refine ⟨fun hk => ?_, fun hk => ?_, fun hk => ?_⟩
            · exact this.1 fun kv hm => hk kv (List.mem_cons_of_mem _ hm)
            · exact this.2.1 fun kv hm => hk kv (List.mem_cons_of_mem _ hm)
            · exact absurd h3 (hk (k, v) (List.mem_cons_self _ _))
        · have h' : extractLoop rest acc = .ok ctx := by
            simpa [extractLoop, h1, h2, h3] using h
          have := ih _ h'
          refine ⟨fun hk => ?_, fun hk => ?_, fun hk => ?_⟩
          · exact this.1 fun kv hm => hk kv (List.mem_cons_of_mem _ hm)
          · exact this.2.1 fun kv hm => hk kv (List.mem_cons_of_mem _ hm)
          · exact this.2.2 fun kv hm => hk kv (List.mem_cons_of_mem _ hm)

theorem extractLoop_error_of_bad (pre : List (String × String)) (k v : String)
    (rest : List (String × String)) (acc : TraceContext)
    (hrec : isRecognizedKey k = true) (hbad : parseUint16 v = none) :
    extractLoop (pre ++ (k, v) :: rest) acc = .error .spanContextCorrupted := by
  induction pre generalizing acc with
  | nil =>
    rcases (isRecognizedKey_iff k).mp hrec with h | h | h <;>
      simp [extractLoop, h, hbad, trace_ne_span, parent_ne_span, parent_ne_trace]
  | cons kv0 pre ih =>
    obtain ⟨k0, v0⟩ := kv0
    by_cases h1 : strToLower k0 = fieldSpanID
    · cases hpv : parseUint16 v0 with
      | none => simp [extractLoop, h1, hpv]
      | some x => simpa [extractLoop, h1, hpv] using ih _
    · by_cases h2 : strToLower k0 = fieldTraceID
      · cases hpv : parseUint16 v0 with
        | none => simp [extractLoop, h1, h2, trace_ne_span, hpv]
        | some x => simpa [extractLoop, h1, h2, trace_ne_span, hpv] using ih _
      · by_cases h3 : strToLower k0 = fieldParentID
        · cases hpv : parseUint16 v0 with
          | none => simp [extractLoop, h1, h2, h3, parent_ne_span, parent_ne_trace, hpv]
          | some x => simpa [extractLoop, h1, h2, h3, parent_ne_span, parent_ne_trace, hpv] using ih _
        · simpa [extractLoop, h1, h2, h3] using ih _

theorem extractLoop_congr {c1 c2 : List (String × String)}
    (h : List.Forall₂ (fun a b => strToLower a.1 = strToLower b.1 ∧ a.2 = b.2) c1 c2)
    (acc : TraceContext) :
    extractLoop c1 acc = extractLoop c2 acc := by
  induction h generalizing acc with
  | nil => rfl
  | @cons a b l1 l2 hab htail ih =>
    obtain ⟨k1, v1⟩ := a
    obtain ⟨k2, v2⟩ := b
    obtain ⟨hk, hv⟩ := hab
    simp only at hk hv
    simp only [extractLoop]
    rw [hk, hv]
    by_cases h1 : strToLower k2 = fieldSpanID
    · simp only [if_pos h1]
      cases parseUint16 v2 <;> simp [ih]
    · simp only [if_neg h1]
      by_cases h2 : strToLower k2 = fieldTraceID
      · simp only [if_pos h2]
        cases parseUint16 v2 <;> simp [ih]
      · simp only [if_neg h2]
        by_cases h3 : strToLower k2 = fieldParentID
        · simp only [if_pos h3]
          cases parseUint16 v2 <;> simp [ih]
        · simp only [if_neg h3]
          exact ih acc

/-! ## C2 -/

/-- C2: whenever some carrier entry has a recognized key (case-insensitively
one of dd-trace-spanid / dd-trace-traceid / dd-trace-parentid) whose value
does not parse as an unsigned base-16 64-bit integer, `Extract` fails with
the context-corrupted error; moreover the first parse failure aborts the
iteration — the entries after the failing one are irrelevant to the
result. -/
theorem c2_extract_corrupted (pre rest : List (String × String)) (k v : String)
    (hrec : isRecognizedKey k = true) (hbad : parseUint16 v = none) :
    propExtract (.textMap (pre ++ (k, v) :: rest)) =
      .error .spanContextCorrupted ∧
    ∀ rest', propExtract (.textMap (pre ++ (k, v) :: rest)) =
      propExtract (.textMap (pre ++ (k, v) :: rest')) := by
  constructor
  · simpa [propExtract] using
      extractLoop_error_of_bad pre k v rest _ hrec hbad
  · intro rest'
    simp only [propExtract]
    rw [extractLoop_error_of_bad pre k v rest _ hrec hbad,
      extractLoop_error_of_bad pre k v rest' _ hrec hbad]

/-- Witness for C2: a carrier whose dd-trace-traceid value is "not-hex". -/
theorem c2_extract_corrupted_witness :
    isRecognizedKey "dd-trace-traceid" = true ∧ parseUint16 "not-hex" = none ∧
      (propExtract (.textMap ([("x-other", "1")] ++
          ("dd-trace-traceid", "not-hex") :: [("dd-trace-spanid", "2")])) =
        .error .spanContextCorrupted ∧
      ∀ rest', propExtract (.textMap ([("x-other", "1")] ++
          ("dd-trace-traceid", "not-hex") :: [("dd-trace-spanid", "2")])) =
        propExtract (.textMap ([("x-other", "1")] ++
          ("dd-trace-traceid", "not-hex") :: rest'))) :=
  ⟨by decide, by decide,
    c2_extract_corrupted [("x-other", "1")] [("dd-trace-spanid", "2")]
      "dd-trace-traceid" "not-hex" (by decide) (by decide)⟩

/-! ## C3 -/

/-- C3: injecting a context with parentID = 0 writes the dd-trace-traceid
and dd-trace-spanid keys but no dd-trace-parentid key; conversely,
extracting from a carrier containing no dd-trace-parentid key (up to
casing) yields, on success, a context with parentID = 0. -/
theorem c3_root_omission (t s : Nat) (c : List (String × String))
    (ctx : TraceContext)
    (hnp : ∀ kv ∈ c, strToLower kv.1 ≠ fieldParentID)
    (hok : propExtract (.textMap c) = .ok ctx) :
    carrierGet (injectWrites ⟨t, s, 0⟩ []) fieldTraceID =
        some (formatUint16 t) ∧
    carrierGet (injectWrites ⟨t, s, 0⟩ []) fieldSpanID =
        some (formatUint16 s) ∧
    carrierGet (injectWrites ⟨t, s, 0⟩ []) fieldParentID = none ∧
    ctx.parentID = 0 := by
  have hw : injectWrites ⟨t, s, 0⟩ [] =
      [(fieldSpanID, formatUint16 s), (fieldTraceID, formatUint16 t)] := by
    simp [injectWrites, carrierSet, span_ne_trace]
  refine ⟨?_, ?_, ?_, ?_⟩
  · rw [hw]; simp [carrierGet, span_ne_trace]
  · rw [hw]; simp [carrierGet]
  · rw [hw]; simp [carrierGet, span_ne_parent, trace_ne_parent]
  · have hloop : extractLoop c ⟨0, 0, 0⟩ = .ok ctx := by
      simpa [propExtract] using hok
    simpa using (extractLoop_preserve c ⟨0, 0, 0⟩ ctx hloop).2.2 hnp

/-- Witness for C3 at t = 5, s = 6 and a parentid-free carrier. -/
theorem c3_root_omission_witness :
    (∀ kv ∈ [("dd-trace-traceid", "a")], strToLower kv.1 ≠ fieldParentID) ∧
    propExtract (.textMap [("dd-trace-traceid", "a")]) = .ok ⟨10, 0, 0⟩ ∧
    (carrierGet (injectWrites ⟨5, 6, 0⟩ []) fieldTraceID =
        some (formatUint16 5) ∧
      carrierGet (injectWrites ⟨5, 6, 0⟩ []) fieldSpanID =
        some (formatUint16 6) ∧
      carrierGet (injectWrites ⟨5, 6, 0⟩ []) fieldParentID = none ∧
      (⟨10, 0, 0⟩ : TraceContext).parentID = 0) :=
  ⟨by decide, rfl,
    c3_root_omission 5 6 [("dd-trace-traceid", "a")] ⟨10, 0, 0⟩ (by decide) rfl⟩

/-! ## C6 -/

/-- C6: for carriers whose entries agree pointwise up to the letter casing
of their keys (equal lower-casings, equal values), `Extract` returns
identical results — in particular it succeeds or fails identically, and on
success the extracted traceID, spanID and parentID agree. -/
theorem c6_case_insensitive (c1 c2 : List (String × String))
    (h : List.Forall₂ (fun a b => strToLower a.1 = strToLower b.1 ∧ a.2 = b.2)
      c1 c2) :
    propExtract (.textMap c1) = propExtract (.textMap c2) := by
  simp only [propExtract]
  exact extractLoop_congr h _

/-- Witness for C6: upper-case versus lower-case trace-id key. -/
theorem c6_case_insensitive_witness :
    List.Forall₂ (fun a b => strToLower a.1 = strToLower b.1 ∧ a.2 = b.2)
      [("DD-TRACE-TRACEID", "ff")] [("dd-trace-traceid", "ff")] ∧
    propExtract (.textMap [("DD-TRACE-TRACEID", "ff")]) =
      propExtract (.textMap [("dd-trace-traceid", "ff")]) :=
  ⟨List.Forall₂.cons ⟨by decide, rfl⟩ List.Forall₂.nil,
    c6_case_insensitive [("DD-TRACE-TRACEID", "ff")] [("dd-trace-traceid", "ff")]
      (List.Forall₂.cons ⟨by decide, rfl⟩ List.Forall₂.nil)⟩

/-! ## C7 -/

/-- C7: when every recognized entry of a readable carrier parses as an
unsigned base-16 64-bit integer, `Extract` returns a context value, each
recognized field that is absent (up to casing) defaulting to 0 — in
particular the all-zero context when no recognized key occurs. -/
theorem c7_missing_fields_default (c : List (String × String))
    (h : ∀ kv ∈ c, isRecognizedKey kv.1 = true → (parseUint16 kv.2).isSome) :
    ∃ ctx, propExtract (.textMap c) = .ok ctx ∧
      ((∀ kv ∈ c, strToLower kv.1 ≠ fieldTraceID) → ctx.traceID = 0) ∧
      ((∀ kv ∈ c, strToLower kv.1 ≠ fieldSpanID) → ctx.spanID = 0) ∧
      ((∀ kv ∈ c, strToLower kv.1 ≠ fieldParentID) → ctx.parentID = 0) := by
  obtain ⟨ctx, hctx⟩ := extractLoop_ok c ⟨0, 0, 0⟩ h
  have hp := extractLoop_preserve c ⟨0, 0, 0⟩ ctx hctx
  exact ⟨ctx, by simpa [propExtract] using hctx,
    fun hk => hp.1 hk, fun hk => hp.2.1 hk, fun hk => hp.2.2 hk⟩

/-- Witness for C7: one well-formed trace-id entry, one unrecognized key. -/
theorem c7_missing_fields_default_witness :
    (∀ kv ∈ [("DD-Trace-TraceID", "ff"), ("x-other", "zz")],
      isRecognizedKey kv.1 = true → (parseUint16 kv.2).isSome) ∧
    (∃ ctx, propExtract (.textMap [("DD-Trace-TraceID", "ff"), ("x-other", "zz")]) =
        .ok ctx ∧
      ((∀ kv ∈ [("DD-Trace-TraceID", "ff"), ("x-other", "zz")],
          strToLower kv.1 ≠ fieldTraceID) → ctx.traceID = 0) ∧
      ((∀ kv ∈ [("DD-Trace-TraceID", "ff"), ("x-other", "zz")],
          strToLower kv.1 ≠ fieldSpanID) → ctx.spanID = 0) ∧
      ((∀ kv ∈ [("DD-Trace-TraceID", "ff"), ("x-other", "zz")],
          strToLower kv.1 ≠ fieldParentID) → ctx.parentID = 0)) :=
  ⟨by decide, c7_missing_fields_default _ (by decide)⟩

/-! ## C4 -/

/-- C4 counterexample: with a context that is not one of this tracer's
(`foreign`) and the non-text-map `binary` format, `Tracer.Inject` fails
with the invalid-span-context error, not the unsupported-format error —
the context type assertion runs before the format switch. -/
theorem c4_counterexample :
    (tracerInject .foreign .binary (.textMap [])).2 =
        some .invalidSpanContext ∧
      OTError.invalidSpanContext ≠ OTError.unsupportedFormat :=
  ⟨rfl, by decide⟩

/-- C4 (amended): for every context that is one produced by this tracer,
every carrier, and every format other than the HTTP-headers text-map
format, `Tracer.Inject` fails with the unsupported-format error and leaves
the carrier unchanged (no partial writes); and `Tracer.Extract` with such a
format fails with the unsupported-format error for every carrier. -/
theorem c4_unsupported_format (ctx : TraceContext) (format : OTFormat)
    (carrier : OTCarrier) (h : format ≠ .httpHeaders) :
    tracerInject (.valid ctx) format carrier =
        (carrier, some .unsupportedFormat) ∧
      tracerExtract format carrier = .error .unsupportedFormat := by
  cases format with
  | httpHeaders => exact absurd rfl h
  | binary => exact ⟨rfl, rfl⟩
  | textMap => exact ⟨rfl, rfl⟩

/-- Witness for the amended C4 at the binary format. -/
theorem c4_unsupported_format_witness :
    OTFormat.binary ≠ OTFormat.httpHeaders ∧
      (tracerInject (.valid ⟨1, 2, 3⟩) .binary (.textMap [("a", "b")]) =
          (.textMap [("a", "b")], some .unsupportedFormat) ∧
        tracerExtract .binary (.textMap [("a", "b")]) =
          .error .unsupportedFormat) :=
  ⟨by decide, c4_unsupported_format ⟨1, 2, 3⟩ .binary (.textMap [("a", "b")])
    (by decide)⟩

/-! ## C8 -/

/-- C8: for every format and carrier, `Tracer.Inject` fails with the
invalid-span-context error whenever the supplied context is not a context
value produced by this tracer's propagation scheme (not a `*SpanContext`
holding a span), and returns the carrier unchanged in that case. -/
theorem c8_invalid_context (sm : OTSpanContextVal) (format : OTFormat)
    (carrier : OTCarrier) (h : ∀ ctx, sm ≠ .valid ctx) :
    tracerInject sm format carrier = (carrier, some .invalidSpanContext) := by
  cases sm with
  | valid ctx => exact absurd rfl (h ctx)
  | noSpan => rfl
  | foreign => rfl

/-- Witness for C8 with a foreign context and the text-map format. -/
theorem c8_invalid_context_witness :
    (∀ ctx, OTSpanContextVal.foreign ≠ .valid ctx) ∧
      tracerInject .foreign .textMap (.textMap [("a", "b")]) =
        (.textMap [("a", "b")], some .invalidSpanContext) :=
  ⟨fun _ hc => OTSpanContextVal.noConfusion hc,
    c8_invalid_context .foreign .textMap (.textMap [("a", "b")])
      (fun _ hc => OTSpanContextVal.noConfusion hc)⟩

/-! ## C5 -/

theorem setTag_not_f64 (s : SpanData) (key : String) (v : GoValue)
    (h : ∀ x, v ≠ .f64 x) :
    SetTag s key v = s.setMeta key (.str (sprint v)) := by
  cases v with
  | f64 x => exact absurd rfl (h x)
  | str a => rfl
  | int n => rfl
  | boolean b => rfl

theorem setMeta_service (s : SpanData) (v : GoValue) :
    s.setMeta ServiceTagKey v = { s with service := sprint v } := by
  simp [SpanData.setMeta]

theorem setMeta_resource (s : SpanData) (v : GoValue) :
    s.setMeta ResourceTagKey v = { s with resource := sprint v } := by
  simp [SpanData.setMeta, (by decide : ResourceTagKey ≠ ServiceTagKey)]

theorem setMeta_generic (s : SpanData) (key : String) (v : GoValue)
    (h1 : key ≠ ServiceTagKey) (h2 : key ≠ ResourceTagKey) :
    s.setMeta key v = { s with meta := mapSet s.meta key (sprint v) } := by
  simp [SpanData.setMeta, SpanData.setMetaRaw, h1, h2]

/-- C5: the `SetTag` dispatch — a `float64` value is recorded as a metric under
the key; any other value is stringified, with the reserved key "service"
updating the dedicated service field, the reserved key "resource" updating
the dedicated resource field, and any other key recording a generic string
tag; in each case the result is the span itself with exactly that one
update applied. -/
theorem c5_settag_dispatch (s : SpanData) (key : String) (value : GoValue) :
    (∀ x, value = .f64 x →
      SetTag s key value = { s with metrics := mapSet s.metrics key x }) ∧
    ((∀ x, value ≠ .f64 x) →
      (key = ServiceTagKey →
        SetTag s key value = { s with service := sprint value }) ∧
      (key = ResourceTagKey →
        SetTag s key value = { s with resource := sprint value }) ∧
      (key ≠ ServiceTagKey → key ≠ ResourceTagKey →
        SetTag s key value =
          { s with meta := mapSet s.meta key (sprint value) })) := by
  constructor
  · rintro x rfl
    rfl
  · intro hnf
    have hs : SetTag s key value = s.setMeta key (.str (sprint value)) :=
      setTag_not_f64 s key value hnf
    have hsp : sprint (.str (sprint value)) = sprint value := rfl
    refine ⟨fun hk => ?_, fun hk => ?_, fun hk1 hk2 => ?_⟩
    · subst hk
      rw [hs, setMeta_service, hsp]
    · subst hk
      rw [hs, setMeta_resource, hsp]
    · rw [hs, setMeta_generic _ _ _ hk1 hk2, hsp]

/-- Witness for C5: a float metric, a generic string tag, and the reserved
service key, each on a concrete span. -/
theorem c5_settag_dispatch_witness :
    SetTag ⟨"op", "svc", "res", [], [], ⟨1, 2, 0⟩⟩ "latency" (.f64 ⟨"12.5"⟩) =
        { name := "op", service := "svc", resource := "res", meta := [],
          metrics := mapSet [] "latency" ⟨"12.5"⟩, ctx := ⟨1, 2, 0⟩ } ∧
      SetTag ⟨"op", "svc", "res", [], [], ⟨1, 2, 0⟩⟩ "env" (.str "prod") =
        { name := "op", service := "svc", resource := "res",
          meta := mapSet [] "env" (sprint (.str "prod")), metrics := [],
          ctx := ⟨1, 2, 0⟩ } ∧
      SetTag ⟨"op", "svc", "res", [], [], ⟨1, 2, 0⟩⟩ "service" (.str "checkout") =
        { name := "op", service := sprint (.str "checkout"), resource := "res",
          meta := [], metrics := [], ctx := ⟨1, 2, 0⟩ } :=
  ⟨(c5_settag_dispatch _ "latency" _).1 ⟨"12.5"⟩ rfl,
    ((c5_settag_dispatch _ "env" _).2 (fun _ hx => GoValue.noConfusion hx)).2.2
      (by decide) (by decide),
    ((c5_settag_dispatch _ "service" _).2 (fun _ hx => GoValue.noConfusion hx)).1 rfl⟩

/-! ## C9 -/

theorem interleaved_none_of_bad : ∀ (args : List GoValue),
    (args.length % 2 = 1 ∨
      ∃ i, 2 * i < args.length ∧
        ∀ str, args.getD (2 * i) (.str "") ≠ .str str) →
    interleavedKVToFields args = none
  | [], h => by
    exfalso
    rcases h with h | ⟨i, hi, _⟩
    · simp at h
    · simp at hi
  | [k], _ => rfl
  | k :: v :: rest, h => by
    cases k with
    | str s =>
      have hrest : rest.length % 2 = 1 ∨
          ∃ i, 2 * i < rest.length ∧
            ∀ str, rest.getD (2 * i) (.str "") ≠ .str str := by
        rcases h with h | ⟨i, hi, hbad⟩
        · left
          simp only [List.length_cons] at h
          omega
        · right
          cases i with
          | zero =>
            exfalso
            have hb := hbad s
            simp at hb
          | succ j =>
            refine ⟨j, ?_, fun str => ?_⟩
            · simp only [List.length_cons] at hi
              omega
            · have h2 : 2 * (j + 1) = 2 * j + 1 + 1 := by ring
              have := hbad str
              rw [h2] at this
              simpa using this
      have hr : interleavedKVToFields rest = none :=
        interleaved_none_of_bad rest hrest
      simp [interleavedKVToFields, hr]
    | f64 x => rfl
    | int n => rfl
    | boolean b => rfl

/-- C9: for every argument sequence that cannot be paired into key/value
fields — odd element count, or an element in key (even) position that is
not a string — `LogKV` is a silent no-op: it returns the span with its
tags, metrics, service name, resource name, operation name and context all
unchanged. -/
theorem c9_logkv_silent_noop (span : SpanData) (args : List GoValue)
    (h : args.length % 2 = 1 ∨
      ∃ i, 2 * i < args.length ∧
        ∀ str, args.getD (2 * i) (.str "") ≠ .str str) :
    LogKV span args = span := by
  simp [LogKV, interleaved_none_of_bad args h]

/-- Witness for C9: a single-element (odd-count) argument list. -/
theorem c9_logkv_silent_noop_witness :
    ([GoValue.str "k"].length % 2 = 1 ∨
      ∃ i, 2 * i < [GoValue.str "k"].length ∧
        ∀ str, [GoValue.str "k"].getD (2 * i) (.str "") ≠ .str str) ∧
      LogKV ⟨"op", "svc", "res", [], [], ⟨1, 2, 0⟩⟩ [GoValue.str "k"] =
        ⟨"op", "svc", "res", [], [], ⟨1, 2, 0⟩⟩ :=
  ⟨Or.inl rfl,
    c9_logkv_silent_noop ⟨"op", "svc", "res", [], [], ⟨1, 2, 0⟩⟩
      [GoValue.str "k"] (Or.inl rfl)⟩

/-! ## C10 -/

/-- C10: `Span.Tracer`'s body is an unconditional call to itself, so no
call depth suffices to produce a result: for every span and every fuel
bound on the recursion depth, the method yields no value. -/
theorem c10_tracer_never_terminates (s : SpanData) (fuel : Nat) :
    spanTracerCalls s fuel = none := by
  induction fuel with
  | zero => rfl
  | succ n ih => simpa [spanTracerCalls] using ih
